import Mathlib

/-!
Verification development for the Agent365-Bridge MCP proxy.

Shallow embedding of the core data structures and operations of the
repository: the JSON schema sanitizer (`sanitizeSchema`), the tool
registry rebuild with name deduplication (`rebuildRegistryFromLive`,
`rebuildRegistryFromCache`), the proxy dispatcher handlers for
`tools/list` and `tools/call` (`listToolsHandler`, `callToolHandler`),
the discovery lifecycle (`applyDiscovery`, `waitForDiscovery`), the
disk tool cache (`loadToolsCache`), the per-backend discovery loop
(`ServerDiscovery.discoverAll`), and the call forwarder
(`ToolForwarder.callTool`).

JavaScript strings become `String`, JS objects become association
lists (`Fields`) with JS `Map`/object-spread update semantics
(replace-in-place on an existing key, append otherwise), numbers
become `Int`, and `undefined`/exception outcomes become `Option` /
explicit outcome parameters.  Handlers that in the source catch every
exception and answer with structured content are total Lean functions
into the result type.
-/

namespace Agent365

/-! ## JSON values

`sanitizeSchema` in the source operates on `Record<string, unknown>`
values parsed from JSON, so we embed the JSON value universe.  Object
fields are kept in insertion order, as JS objects do. -/

inductive JsonValue where
  | str (s : String)
  | num (n : Int)
  | bool (b : Bool)
  | null
  | arr (elems : List JsonValue)
  | obj (fields : List (String × JsonValue))
deriving Repr

/-- Object/record contents: ordered association list of fields. -/
abbrev Fields := List (String × JsonValue)

mutual

/-- Structural equality of JSON values (JS `===`-style for primitives,
used to model `new Set(...)` dedup over `required` arrays). -/
def beqVal : JsonValue → JsonValue → Bool
  | .str s, .str t => s == t
  | .num m, .num n => m == n
  | .bool x, .bool y => x == y
  | .null, .null => true
  | .arr xs, .arr ys => beqArr xs ys
  | .obj fs, .obj gs => beqObj fs gs
  | _, _ => false

def beqArr : List JsonValue → List JsonValue → Bool
  | [], [] => true
  | x :: xs, y :: ys => beqVal x y && beqArr xs ys
  | _, _ => false

def beqObj : List (String × JsonValue) → List (String × JsonValue) → Bool
  | [], [] => true
  | (k, v) :: fs, (l, w) :: gs => k == l && beqVal v w && beqObj fs gs
  | _, _ => false

end

/-- JS `Map.get(k)` / property read on an association list. -/
def mapGet (m : List (String × α)) (k : String) : Option α :=
  (m.find? (fun p => p.1 = k)).map (fun p => p.2)

/-- JS `Map.set(k, v)` / property write: replaces the value at an
existing key in place, otherwise appends the binding at the end. -/
def mapSet (m : List (String × α)) (k : String) (v : α) : List (String × α) :=
  if m.any (fun p => p.1 = k) then
    m.map (fun p => if p.1 = k then (k, v) else p)
  else
    m ++ [(k, v)]

/-- JS `delete obj[k]`. -/
def mapDelete (m : List (String × α)) (k : String) : List (String × α) :=
  m.filter (fun p => p.1 ≠ k)

/-- JS truthiness of a value (`undefined` is handled by callers via
`Option`). -/
def jsTruthy : JsonValue → Bool
  | .str s => s ≠ ""
  | .num n => n ≠ 0
  | .bool b => b
  | .null => false
  | .arr _ => true
  | .obj _ => true

/-- Fields with stringified index keys, as produced by spreading or
`Object.entries` on a JS array. -/
def enumFields (xs : List JsonValue) : Fields :=
  xs.enum.map (fun p => (toString p.1, p.2))

/-- The enumerable own fields a value contributes under JS object
spread: an object spreads its fields, an array its index-keyed
elements, and other primitives contribute nothing. -/
def spreadFields : JsonValue → Fields
  | .obj fs => fs
  | .arr xs => enumFields xs
  | _ => []

/-- JS `{...a, ...b}`: fields of `b` merged over `a`, later keys
overriding in place. -/
def objSpread (a b : Fields) : Fields :=
  b.foldl (fun acc p => mapSet acc p.1 p.2) a

/-- Property read on an arbitrary JSON value (`undefined` = `none`). -/
def jget (v : JsonValue) (k : String) : Option JsonValue :=
  match v with
  | .obj fs => mapGet fs k
  | _ => none

/-- JS `[...new Set(list)]`: dedup keeping first occurrences. -/
def jsSetDedup (l : List JsonValue) : List JsonValue :=
  l.foldl (fun acc x => if acc.any (fun y => beqVal x y) then acc else acc ++ [x]) []

/-- One `sub.properties` / `first.properties` merge step of
`sanitizeSchema`: `result.properties = {...(result.properties ?? {}),
...(sub.properties)}`, guarded by `if (sub.properties)`. -/
def mergeProperties (result : Fields) (sub : JsonValue) : Fields :=
  match jget sub "properties" with
  | some pv =>
    if jsTruthy pv then
      let existing := spreadFields ((mapGet result "properties").getD .null)
      mapSet result "properties" (.obj (objSpread existing (spreadFields pv)))
    else result
  | none => result

/-- One `sub.required` merge step of `sanitizeSchema`:
`result.required = [...new Set([...existing, ...sub.required])]`,
guarded by `if (Array.isArray(sub.required))`. -/
def mergeRequired (result : Fields) (sub : JsonValue) : Fields :=
  match jget sub "required" with
  | some (.arr req) =>
    let existing :=
      match mapGet result "required" with
      | some (.arr e) => e
      | _ => []
    mapSet result "required" (.arr (jsSetDedup (existing ++ req)))
  | _ => result

/-- `if (!result.type) result.type = "object"`. -/
def defaultTypeObject (result : Fields) : Fields :=
  if jsTruthy ((mapGet result "type").getD .null) then result
  else mapSet result "type" (.str "object")

/-- Fuel-indexed body of `sanitizeSchema` (the fuel only bounds the
recursion depth into nested `properties`; the wrapper below supplies
more fuel than any input can consume, so the fuel never alters the
computed result). -/
def sanitizeGo : Nat → Fields → Fields
  | 0, schema => schema
  | fuel + 1, schema =>
    -- const result = { ...schema };
    let result := schema
    -- allOf: merge every sub-schema, drop the key, default the type
    let result :=
      match mapGet result "allOf" with
      | some (.arr subs) =>
        let merged := subs.foldl (fun r sub => mergeRequired (mergeProperties r sub) sub) result
        defaultTypeObject (mapDelete merged "allOf")
      | _ => result
    -- oneOf / anyOf: keep only the first variant, drop the key
    let result :=
      match mapGet result "oneOf" with
      | some (.arr variants) =>
        let merged :=
          match variants with
          | first :: _ => mergeRequired (mergeProperties result first) first
          | [] => result
        defaultTypeObject (mapDelete merged "oneOf")
      | _ => result
    let result :=
      match mapGet result "anyOf" with
      | some (.arr variants) =>
        let merged :=
          match variants with
          | first :: _ => mergeRequired (mergeProperties result first) first
          | [] => result
        defaultTypeObject (mapDelete merged "anyOf")
      | _ => result
    -- recurse into nested property values that are themselves objects
    -- (an array value is spread into an index-keyed object by the
    -- recursive call, mirroring `{...schema}` on an array)
    match mapGet result "properties" with
    | some pv =>
      match pv with
      | .obj pfs =>
        mapSet result "properties"
          (.obj (pfs.map (fun p =>
            (p.1, match p.2 with
                  | .obj f => .obj (sanitizeGo fuel f)
                  | .arr xs => .obj (sanitizeGo fuel (enumFields xs))
                  | v => v))))
      | .arr pxs =>
        mapSet result "properties"
          (.obj ((enumFields pxs).map (fun p =>
            (p.1, match p.2 with
                  | .obj f => .obj (sanitizeGo fuel f)
                  | .arr xs => .obj (sanitizeGo fuel (enumFields xs))
                  | v => v))))
      | _ => result
    | none => result

mutual

/-- Size of a JSON value, used to supply sufficient fuel to
`sanitizeGo` (recursion into `properties` strictly decreases it). -/
def jsizeVal : JsonValue → Nat
  | .arr xs => 1 + jsizeArr xs
  | .obj fs => 1 + jsizeFields fs
  | _ => 1

def jsizeArr : List JsonValue → Nat
  | [] => 0
  | x :: xs => jsizeVal x + jsizeArr xs

def jsizeFields : List (String × JsonValue) → Nat
  | [] => 0
  | (_, v) :: fs => jsizeVal v + jsizeFields fs

end

/-- `sanitizeSchema` from `mcp-proxy-server.ts`: strips
`allOf`/`oneOf`/`anyOf` composition keywords from a JSON schema by
merging (`allOf`) or picking variant 0 (`oneOf`/`anyOf`), and recurses
into nested `properties` values. -/
def sanitizeSchema (schema : Fields) : Fields :=
  sanitizeGo (1 + jsizeFields schema) schema

/-! ## Domain data model (`config/types.ts`, `auth/tools-cache.ts`) -/

/-- One entry of `ToolingManifest.json` (`MCPServerConfig`).  Optional
string fields are `Option String`; a JS falsy empty-string URL is
modelled by `some ""` and handled where the source tests truthiness. -/
structure MCPServerConfig where
  mcpServerName : String
  mcpServerUniqueName : Option String := none
  url : Option String := none
  scope : Option String := none
  audience : Option String := none
deriving Repr, DecidableEq

/-- A tool discovered from a remote server (`DiscoveredTool`). -/
structure DiscoveredTool where
  name : String
  description : Option String := none
  inputSchema : Fields := []
deriving Repr

/-- A backend with its endpoint URL and discovered tools
(`ResolvedServer`). -/
structure ResolvedServer where
  config : MCPServerConfig
  url : String
  tools : List DiscoveredTool
deriving Repr

/-- Persisted form of a discovered tool (`CachedTool`). -/
structure CachedTool where
  name : String
  description : String
  inputSchema : Fields := []
  serverName : String
deriving Repr

/-- On-disk shape of `tools-cache.json` (`ToolsCache`): a batch of
tools with one capture timestamp (epoch milliseconds). -/
structure ToolsCache where
  timestamp : Int
  tools : List CachedTool
deriving Repr

/-- A tool definition as served to the host over `tools/list`. -/
structure ToolDef where
  name : String
  description : Option String := none
  inputSchema : Fields := []
deriving Repr

/-- Registry entry (`ToolRegistryEntry` in `mcp-proxy-server.ts`). -/
structure ToolRegistryEntry where
  uniqueName : String
  originalName : String
  serverName : String
  toolDef : ToolDef
deriving Repr

/-! ## Tool registry rebuild with deduplication
(`rebuildRegistryFromLive` / `rebuildRegistryFromCache`) -/

/-- The (tool, origin backend name) occurrences visited by the nested
`for (const server of servers) for (const tool of server.tools)`
loops, in iteration order. -/
def flatTools (servers : List ResolvedServer) : List (DiscoveredTool × String) :=
  servers.flatMap (fun s => s.tools.map (fun t => (t, s.config.mcpServerName)))

/-- One step of pass 1:
`nameCounts.set(name, (nameCounts.get(name) || 0) + 1)`. -/
def bumpCount (m : List (String × Nat)) (n : String) : List (String × Nat) :=
  mapSet m n ((mapGet m n).getD 0 + 1)

/-- `nameCounts.get(name) || 0`. -/
def countOf (m : List (String × Nat)) (n : String) : Nat :=
  (mapGet m n).getD 0

/-- Pass 1 of the registry rebuild: frequency count of tool names
across all backends. -/
def nameCounts (servers : List ResolvedServer) : List (String × Nat) :=
  (flatTools servers).foldl (fun m p => bumpCount m p.1.name) []

/-- Pass 2 name assignment: suffix `_ServerName` exactly when the
original name occurs more than once across backends. -/
def uniqueNameOf (counts : List (String × Nat)) (t : DiscoveredTool) (srv : String) : String :=
  if countOf counts t.name > 1 then t.name ++ "_" ++ srv else t.name

/-- The `(uniqueName, ToolRegistryEntry)` binding inserted by pass 2
for one tool occurrence. -/
def liveEntryPair (counts : List (String × Nat)) (p : DiscoveredTool × String) :
    String × ToolRegistryEntry :=
  let u := uniqueNameOf counts p.1 p.2
  (u, { uniqueName := u
        originalName := p.1.name
        serverName := p.2
        toolDef := { name := u
                     description := p.1.description
                     inputSchema := sanitizeSchema p.1.inputSchema } })

/-- `rebuildRegistryFromLive`: clears the registry, counts name
frequencies (pass 1), then inserts one entry per tool occurrence with
the deduplicated name as the `Map` key (pass 2). -/
def rebuildRegistryFromLive (servers : List ResolvedServer) :
    List (String × ToolRegistryEntry) :=
  let counts := nameCounts servers
  (flatTools servers).foldl
    (fun reg p => mapSet reg (liveEntryPair counts p).1 (liveEntryPair counts p).2) []

/-- Pass 1 of `rebuildRegistryFromCache`. -/
def cacheNameCounts (tools : List CachedTool) : List (String × Nat) :=
  tools.foldl (fun m t => bumpCount m t.name) []

/-- Pass 2 name assignment of `rebuildRegistryFromCache`. -/
def cacheUniqueNameOf (counts : List (String × Nat)) (t : CachedTool) : String :=
  if countOf counts t.name > 1 then t.name ++ "_" ++ t.serverName else t.name

/-- The binding inserted by pass 2 of `rebuildRegistryFromCache`. -/
def cacheEntryPair (counts : List (String × Nat)) (t : CachedTool) :
    String × ToolRegistryEntry :=
  let u := cacheUniqueNameOf counts t
  (u, { uniqueName := u
        originalName := t.name
        serverName := t.serverName
        toolDef := { name := u
                     description := some t.description
                     inputSchema := sanitizeSchema t.inputSchema } })

/-- `rebuildRegistryFromCache`: same two passes over the flat cached
tool list. -/
def rebuildRegistryFromCache (tools : List CachedTool) :
    List (String × ToolRegistryEntry) :=
  let counts := cacheNameCounts tools
  tools.foldl
    (fun reg t => mapSet reg (cacheEntryPair counts t).1 (cacheEntryPair counts t).2) []

/-- External names assigned by pass 2 to all tool occurrences, in
order (the registry `Map` keys before any overwrite collapses them). -/
def assignedExternalNames (servers : List ResolvedServer) : List String :=
  (flatTools servers).map (fun p => uniqueNameOf (nameCounts servers) p.1 p.2)

/-! ## Structured call results and the call forwarder
(`tool-forwarder.ts`, `ToolForwarder.callTool`) -/

/-- One `{type, text}` content block. -/
structure ContentItem where
  type : String
  text : String
deriving Repr, DecidableEq

/-- The `{content: [...]}` value every call answers with. -/
structure CallResult where
  content : List ContentItem
deriving Repr, DecidableEq

/-- Behaviour of the backend on one forwarded call.  `connectError`
covers token acquisition and `client.connect` throwing inside the
`try` block, `callError` covers `client.callTool` rejecting, and `ok`
carries `result.content` (absent means the source falls back to
`JSON.stringify(result)`, passed here as `raw`). -/
inductive BackendBehavior where
  | connectError (msg : String)
  | callError (msg : String)
  | ok (content : Option (List ContentItem)) (raw : String)
deriving Repr

/-- The forwarder: its constructor-built tool-name-to-server map. -/
structure ToolForwarder where
  toolServerMap : List (String × ResolvedServer)

/-- The `ToolForwarder` constructor loop:
`toolServerMap.set(tool.name, server)` for every server and tool. -/
def mkToolForwarder (servers : List ResolvedServer) : ToolForwarder :=
  { toolServerMap :=
      servers.foldl
        (fun m s => s.tools.foldl (fun m t => mapSet m t.name s) m) [] }

/-- Error text of the unknown-tool branch of `callTool`. -/
def unknownToolText (fw : ToolForwarder) (toolName : String) : String :=
  "Error: Unknown tool \x22" ++ toolName ++ "\x22. Available tools: "
    ++ String.intercalate ", " (fw.toolServerMap.map (fun p => p.1))

/-- Error text rendered by the `catch` block of `callTool`. -/
def callFailedText (toolName serverName msg : String) : String :=
  "Error calling tool \x22" ++ toolName ++ "\x22 on " ++ serverName ++ ": " ++ msg

/-- `ToolForwarder.callTool`: resolves the owning server
(`targetServer ?? toolServerMap.get(toolName)`), forwards the call,
and converts every failure into a structured content result.  The
function is total into `CallResult`: no raised error escapes. -/
def ToolForwarder.callTool (fw : ToolForwarder) (toolName : String) (_args : Fields)
    (targetServer : Option ResolvedServer) (behavior : BackendBehavior) : CallResult :=
  let server :=
    match targetServer with
    | some s => some s
    | none => mapGet fw.toolServerMap toolName
  match server with
  | none => { content := [{ type := "text", text := unknownToolText fw toolName }] }
  | some s =>
    match behavior with
    | .connectError msg =>
      { content := [{ type := "text", text := callFailedText toolName s.config.mcpServerName msg }] }
    | .callError msg =>
      { content := [{ type := "text", text := callFailedText toolName s.config.mcpServerName msg }] }
    | .ok content raw =>
      { content := content.getD [{ type := "text", text := raw }] }

/-! ## Proxy dispatcher state machine (`McpProxyServer`, registry
variant of `mcp-proxy-server.ts`) -/

/-- Dispatcher state: the fields of `McpProxyServer` that the
handlers read and the discovery task writes.  `forwarder` records
whether a live `ToolForwarder` is present (`null` vs not), and
`hasDiscoveryTask` whether `discoveryDone` is a pending promise. -/
structure ProxyState where
  registry : List (String × ToolRegistryEntry)
  resolvedServers : List ResolvedServer
  forwarder : Bool
  cachedTools : Option (List CachedTool)
  hasDiscoveryTask : Bool
  discoveryComplete : Bool
  discoveryError : Option String

/-- Result of the background discovery task: the resolution value of
the `discoveryCallback` promise, or its rejection reason. -/
inductive DiscoveryOutcome where
  | success (servers : List ResolvedServer)
  | failure (msg : String)

/-- `runDiscovery`: on success install the live forwarder and servers,
mark complete, and rebuild the registry from live tools; on failure
record the message and mark complete (`catch` branch), leaving the
forwarder and registry untouched.  (The disk-cache write and the
best-effort change notification have no effect on dispatcher state.) -/
def applyDiscovery (st : ProxyState) (o : DiscoveryOutcome) : ProxyState :=
  match o with
  | .success servers =>
    { st with forwarder := true
              resolvedServers := servers
              discoveryComplete := true
              registry := rebuildRegistryFromLive servers }
  | .failure msg =>
    { st with discoveryError := some msg
              discoveryComplete := true }

/-- The `McpProxyServer` constructor: load the disk cache, build the
registry from it when non-empty, mark discovery complete (and rebuild
from live tools) when an eager forwarder with servers was supplied,
and otherwise start the background discovery task when a callback was
given. -/
def mkProxyState (forwarder : Bool) (resolvedServers : List ResolvedServer)
    (hasDiscoveryCallback : Bool) (diskCache : Option (List CachedTool)) : ProxyState :=
  let registry0 : List (String × ToolRegistryEntry) :=
    match diskCache with
    | some cs => if cs.length > 0 then rebuildRegistryFromCache cs else []
    | none => []
  let complete := forwarder && resolvedServers.length > 0
  { registry := if complete then rebuildRegistryFromLive resolvedServers else registry0
    resolvedServers := resolvedServers
    forwarder := forwarder
    cachedTools := diskCache
    hasDiscoveryTask := hasDiscoveryCallback && !complete
    discoveryComplete := complete
    discoveryError := none }

/-- `waitForDiscovery(timeoutMs)` together with its timing: `delay` is
the remaining time (ms) until the background discovery task settles
(`none` if it never settles), `o` the outcome it settles with.
Returns (result, elapsed ms, dispatcher state visible after the
wait).  Mirrors the source: already complete answers `true` at once;
no task answers `false` at once; otherwise `Promise.race` of the task
against the timeout. -/
def waitForDiscovery (st : ProxyState) (o : DiscoveryOutcome) (delay : Option Nat)
    (timeoutMs : Nat) : Bool × Nat × ProxyState :=
  if st.discoveryComplete then (true, 0, st)
  else if !st.hasDiscoveryTask then (false, 0, st)
  else
    match delay with
    | some d => if d ≤ timeoutMs then (true, d, applyDiscovery st o) else (false, timeoutMs, st)
    | none => (false, timeoutMs, st)

/-- The sign-in placeholder tool definition returned by `tools/list`
when nothing is known yet. -/
def signInToolDef : ToolDef :=
  { name := "agent365_sign_in_status"
    description := some "Agent 365 Bridge setup required. Run \x27npm run login\x27 to set up."
    inputSchema := [("type", .str "object"), ("properties", .obj [])] }

/-- The connection-failure placeholder tool definition. -/
def connectionStatusToolDef (err : String) : ToolDef :=
  { name := "agent365_connection_status"
    description := some ("Agent 365 Bridge connection failed: " ++ err)
    inputSchema := [("type", .str "object"), ("properties", .obj [])] }

/-- The `tools/list` handler of the registry variant: registry
contents when any exist, else the connection-failure placeholder when
an error is recorded, else the sign-in placeholder.  A pure function
of the state: it never awaits discovery. -/
def listToolsHandler (st : ProxyState) : List ToolDef :=
  if st.registry.length > 0 then
    st.registry.map (fun p => p.2.toolDef)
  else
    match st.discoveryError with
    | some e => [connectionStatusToolDef e]
    | none => [signInToolDef]

/-- Reply of the registry-variant `tools/call` handler to the sign-in
placeholder (a fixed text, independent of state). -/
def signInCallResult : CallResult :=
  { content := [{ type := "text"
                  text := "Please run \x27npm run login\x27 in the terminal to set up Agent 365." }] }

/-- The unknown-tool reply of the registry-variant handler. -/
def toolNotFoundResult (name : String) : CallResult :=
  { content := [{ type := "text", text := "Error: Tool \x27" ++ name ++ "\x27 not found." }] }

/-- The reply when the 30 s discovery wait elapses (or completes
without producing a live forwarder). -/
def connectionTimeoutResult : CallResult :=
  { content := [{ type := "text", text := "Timeout waiting for Agent 365 connection." }] }

/-- The reply when a registry entry points at a backend that is not
among the resolved servers. -/
def serverNotFoundResult (serverName : String) : CallResult :=
  { content := [{ type := "text", text := "Error: Server \x27" ++ serverName ++ "\x27 not found." }] }

/-- The `tools/call` handler of the registry variant: intercept the
sign-in placeholder, look the name up in the registry, wait up to
30 s for discovery when no live forwarder exists yet, resolve the
entry's backend, and forward.  Total into `CallResult`. -/
def callToolHandler (st : ProxyState) (o : DiscoveryOutcome) (delay : Option Nat)
    (name : String) (args : Fields) (behavior : BackendBehavior) : CallResult :=
  if name = "agent365_sign_in_status" then signInCallResult
  else
    match mapGet st.registry name with
    | none => toolNotFoundResult name
    | some entry =>
      let step : Bool × ProxyState :=
        if st.forwarder then (true, st)
        else
          let w := waitForDiscovery st o delay 30000
          (w.1, w.2.2)
      if !step.1 || !step.2.forwarder then connectionTimeoutResult
      else
        match step.2.resolvedServers.find?
            (fun s => s.config.mcpServerName = entry.serverName) with
        | none => serverNotFoundResult entry.serverName
        | some ts =>
          ToolForwarder.callTool (mkToolForwarder step.2.resolvedServers)
            entry.originalName args (some ts) behavior

/-- Status reply of the earlier (pre-registry) handler variant for
both placeholder names, reflecting the current discovery state. -/
def placeholderStatusResultV1 (st : ProxyState) : CallResult :=
  if st.discoveryComplete && st.discoveryError.isNone then
    { content := [{ type := "text"
                    text := "✅ Agent 365 is connected! Tools are ready to use." }] }
  else
    match st.discoveryError with
    | some e =>
      { content := [{ type := "text"
                      text := "❌ Connection failed: " ++ e
                        ++ "\n\nRun \x27npm run login\x27 to set up." }] }
    | none =>
      { content := [{ type := "text"
                      text := "⏳ Agent 365 is still connecting. Please wait a moment and try again." }] }

/-- Timeout reply of the earlier handler variant. -/
def connectionTimeoutResultV1 : CallResult :=
  { content := [{ type := "text"
                  text := "⏳ Agent 365 Bridge is still connecting to Microsoft 365. "
                    ++ "Please wait a moment and try again.\n\n"
                    ++ "If this persists, run \x27npm run login\x27 in the Agent365 directory." }] }

/-- The `tools/call` handler of the earlier (pre-registry) variant:
both placeholder names are intercepted first and answered with the
state-dependent status message; other names wait for the forwarder if
needed and are forwarded by their external name without a registry
lookup. -/
def callToolHandlerV1 (st : ProxyState) (o : DiscoveryOutcome) (delay : Option Nat)
    (name : String) (args : Fields) (behavior : BackendBehavior) : CallResult :=
  if name = "agent365_sign_in_status" ∨ name = "agent365_connection_status" then
    placeholderStatusResultV1 st
  else
    let step : Bool × ProxyState :=
      if st.forwarder then (true, st)
      else
        let w := waitForDiscovery st o delay 30000
        (w.1, w.2.2)
    if !step.1 || !step.2.forwarder then connectionTimeoutResultV1
    else
      ToolForwarder.callTool (mkToolForwarder step.2.resolvedServers)
        name args none behavior

/-! ## Disk tool cache (`auth/tools-cache.ts`) -/

/-- Max cache age before it is considered stale: 24 hours in ms. -/
def MAX_CACHE_AGE_MS : Int := 24 * 60 * 60 * 1000

/-- What `loadToolsCache` finds on disk: no file, a file whose read or
`JSON.parse` throws (caught and turned into `null`), or a parsed
cache. -/
inductive CacheFile where
  | missing
  | unparseable
  | parsed (cache : ToolsCache)

/-- `loadToolsCache` at current time `now` (epoch ms): `none` when the
file is missing, when reading/parsing throws, or when the cache is
older than 24 hours; otherwise the cached tools.  Total: absent is a
value, never an error. -/
def loadToolsCache (file : CacheFile) (now : Int) : Option (List CachedTool) :=
  match file with
  | .missing => none
  | .unparseable => none
  | .parsed cache =>
    if now - cache.timestamp > MAX_CACHE_AGE_MS then none else some cache.tools

/-! ## Discovery engine (`server-discovery.ts`) -/

/-- `endpoint.replace(/\/+$/, "")`: strip trailing slashes. -/
def stripTrailingSlashes (s : String) : String :=
  String.mk ((s.data.reverse.dropWhile (fun c => c = '/')).reverse)

/-- `buildServerUrl`: explicit per-backend URL override when truthy,
else `{endpoint}/agents/servers/{serverName}/`. -/
def buildServerUrl (endpoint : String) (config : MCPServerConfig) : String :=
  let patterned :=
    stripTrailingSlashes endpoint ++ "/agents/servers/" ++ config.mcpServerName ++ "/"
  match config.url with
  | some u => if u = "" then patterned else u
  | none => patterned

/-- `ServerDiscovery.discoverAll` over an already-obtained descriptor
list: iterate backends sequentially; a backend whose discovery throws
(`outcomes` returns `.error`) is logged and skipped, contributing
nothing; a successful backend appends its resolved entry.  Total into
a plain list: no per-backend error reaches the caller. -/
def ServerDiscovery.discoverAll (endpoint : String) (configs : List MCPServerConfig)
    (outcomes : MCPServerConfig → Except String (List DiscoveredTool)) :
    List ResolvedServer :=
  configs.foldl
    (fun resolved cfg =>
      match outcomes cfg with
      | .ok tools =>
        resolved ++ [{ config := cfg, url := buildServerUrl endpoint cfg, tools := tools }]
      | .error _ => resolved)
    []

/-! ## Concrete example inputs used by witnesses and counterexamples -/

/-- Backend config `srvS`. -/
def cfgS : MCPServerConfig := { mcpServerName := "srvS" }

/-- Backend config `srvT`. -/
def cfgT : MCPServerConfig := { mcpServerName := "srvT" }

/-- Two backends: `srvS` exposing tools `alpha`, `beta`; `srvT`
exposing `alpha` (so `alpha` collides, `beta` is unique). -/
def demoServers : List ResolvedServer :=
  [ { config := cfgS, url := "http://s/", tools := [{ name := "alpha" }, { name := "beta" }] }
  , { config := cfgT, url := "http://t/", tools := [{ name := "alpha" }] } ]

/-- Adversarial input for second-order name collisions: `a` collides
across `srvS`/`srvT` (suffixed to `a_srvS` / `a_srvT`), while backend
`srvS` also exposes a distinct tool literally named `a_srvS`. -/
def clashServers : List ResolvedServer :=
  [ { config := cfgS, url := "http://s/", tools := [{ name := "a" }, { name := "a_srvS" }] }
  , { config := cfgT, url := "http://t/", tools := [{ name := "a" }] } ]

/-- A cached tool record for `alpha` on `srvS`. -/
def cachedAlpha : CachedTool :=
  { name := "alpha", description := "demo tool", serverName := "srvS" }

/-- Dispatcher state right after construction from a disk cache, with
background discovery still running: no live forwarder yet. -/
def stRunning : ProxyState := mkProxyState false [] true (some [cachedAlpha])

/-- Dispatcher state right after construction with neither an eager
forwarder nor a disk cache, discovery running. -/
def stNoCache : ProxyState := mkProxyState false [] true none

/-- Backend descriptors for the discovery example. -/
def cfgA : MCPServerConfig := { mcpServerName := "A" }

/-- Backend descriptor B (its discovery will fail). -/
def cfgB : MCPServerConfig := { mcpServerName := "B" }

/-- Backend descriptor C. -/
def cfgC : MCPServerConfig := { mcpServerName := "C" }

/-- Per-backend discovery outcomes: A yields 3 tools, B throws a
connection error, C yields 2 tools. -/
def demoOutcomes : MCPServerConfig → Except String (List DiscoveredTool) :=
  fun cfg =>
    if cfg.mcpServerName = "A" then
      .ok [{ name := "t1" }, { name := "t2" }, { name := "t3" }]
    else if cfg.mcpServerName = "C" then
      .ok [{ name := "u1" }, { name := "u2" }]
    else .error "connect ECONNREFUSED"

/-! ## Association-list (`Map`) lemmas -/

theorem mapGet_nil (k : String) : mapGet ([] : List (String × α)) k = none := rfl

theorem mapGet_cons (p : String × α) (t : List (String × α)) (k : String) :
    mapGet (p :: t) k = if p.1 = k then some p.2 else mapGet t k := by
  by_cases h : p.1 = k
  · simp [mapGet, List.find?_cons_of_pos, h]
  · simp [mapGet, List.find?_cons_of_neg, h]

theorem mapGet_append_single (m : List (String × α)) (k k' : String) (v : α) :
    mapGet (m ++ [(k, v)]) k' =
      if (mapGet m k').isSome then mapGet m k'
      else if k' = k then some v else none := by
  induction m with
  | nil => simp [mapGet_nil, mapGet_cons, eq_comm]
  | cons p t ih =>
    by_cases hp : p.1 = k'
    · simp [List.cons_append, mapGet_cons, hp]
    · simpa [List.cons_append, mapGet_cons, hp] using ih

theorem mapGet_map_replace_ne (m : List (String × α)) (k k' : String) (v : α)
    (hne : k' ≠ k) :
    mapGet (m.map (fun p => if p.1 = k then (k, v) else p)) k' = mapGet m k' := by
  induction m with
  | nil => rfl
  | cons p t ih =>
    by_cases hp : p.1 = k
    · simpa [List.map_cons, hp, mapGet_cons, Ne.symm hne] using ih
    · by_cases hp' : p.1 = k'
      · simp [List.map_cons, hp, mapGet_cons, hp', hne]
      · simpa [List.map_cons, hp, mapGet_cons, hp'] using ih

theorem mapGet_map_replace_mem (m : List (String × α)) (k : String) (v : α)
    (hmem : m.any (fun p => p.1 = k) = true) :
    mapGet (m.map (fun p => if p.1 = k then (k, v) else p)) k = some v := by
  induction m with
  | nil => simp at hmem
  | cons p t ih =>
    by_cases hp : p.1 = k
    · simp [List.map_cons, hp, mapGet_cons]
    · simp only [List.any_cons] at hmem
      rw [show (decide (p.1 = k)) = false by simpa using hp, Bool.false_or] at hmem
      simpa [List.map_cons, hp, mapGet_cons] using ih hmem

theorem mapGet_mapSet (m : List (String × α)) (k k' : String) (v : α) :
    mapGet (mapSet m k v) k' = if k' = k then some v else mapGet m k' := by
  unfold mapSet
  by_cases hmem : m.any (fun p => p.1 = k) = true
  · rw [if_pos hmem]
    by_cases hk : k' = k
    · subst hk; rw [if_pos rfl]; exact mapGet_map_replace_mem m k' v hmem
    · rw [if_neg hk]; exact mapGet_map_replace_ne m k k' v hk
  · rw [if_neg hmem]
    rw [mapGet_append_single]
    have hnone : mapGet m k = none := by
      simp only [List.any_eq_true, not_exists, not_and] at hmem
      have : List.find? (fun p => decide (p.1 = k)) m = none := by
        rw [List.find?_eq_none]
        intro p hp
        simpa using fun h => by simpa [h] using hmem p hp
      simp [mapGet, this]
    by_cases hk : k' = k
    · subst hk; simp [hnone]
    · by_cases hsome : (mapGet m k').isSome
      · simp [hsome, hk]
      · have hn : mapGet m k' = none := by
          simpa [Option.not_isSome_iff_eq_none] using hsome
        simp [hsome, hk, hn]

theorem mapSet_of_not_mem (m : List (String × α)) (k : String) (v : α)
    (h : k ∉ m.map Prod.fst) : mapSet m k v = m ++ [(k, v)] := by
  unfold mapSet
  rw [if_neg]
  simp only [List.any_eq_true, not_exists, not_and]
  intro p hp
  simp only [decide_eq_true_eq]
  intro hpk
  exact h (hpk ▸ List.mem_map_of_mem Prod.fst hp)

theorem foldl_mapSet_eq_append (l acc : List (String × α))
    (hnd : (l.map Prod.fst).Nodup)
    (hfresh : ∀ k ∈ l.map Prod.fst, k ∉ acc.map Prod.fst) :
    l.foldl (fun m p => mapSet m p.1 p.2) acc = acc ++ l := by
  induction l generalizing acc with
  | nil => simp
  | cons p t ih =>
    simp only [List.map_cons, List.nodup_cons] at hnd
    have hp : p.1 ∉ acc.map Prod.fst := hfresh p.1 (by simp)
    simp only [List.foldl_cons]
    rw [mapSet_of_not_mem acc p.1 p.2 hp]
    rw [ih (acc ++ [(p.1, p.2)]) hnd.2]
    · simp
    · intro k hk
      simp only [List.map_append, List.mem_append] at *
      push_neg
      constructor
      · exact hfresh k (by simp [hk])
      · simp only [List.map_cons, List.map_nil, List.mem_singleton]
        intro hkp
        exact hnd.1 (hkp ▸ hk)

theorem length_foldl_mapSet_ge (l : List (String × α)) (acc : List (String × α)) :
    acc.length ≤ (l.foldl (fun m p => mapSet m p.1 p.2) acc).length := by
  induction l generalizing acc with
  | nil => simp
  | cons p t ih =>
    simp only [List.foldl_cons]
    refine le_trans ?_ (ih (mapSet acc p.1 p.2))
    unfold mapSet
    by_cases h : acc.any (fun q => q.1 = p.1) = true
    · simp [h]
    · simp [h]

/-! ## Frequency-count lemmas -/

theorem countOf_nil (n : String) : countOf [] n = 0 := rfl

theorem countOf_bumpCount (m : List (String × Nat)) (k n : String) :
    countOf (bumpCount m k) n = countOf m n + if k = n then 1 else 0 := by
  unfold bumpCount countOf
  rw [mapGet_mapSet]
  by_cases h : n = k
  · subst h; simp
  · have h' : k ≠ n := fun hh => h hh.symm
    simp [h, h']

theorem countOf_foldl_bump (l : List β) (f : β → String) (m : List (String × Nat))
    (n : String) :
    countOf (l.foldl (fun acc x => bumpCount acc (f x)) m) n
      = countOf m n + l.countP (fun x => f x = n) := by
  induction l generalizing m with
  | nil => simp
  | cons x t ih =>
    simp only [List.foldl_cons, List.countP_cons]
    rw [ih, countOf_bumpCount]
    by_cases h : f x = n
    · simp [h]; omega
    · simp [h]

theorem countOf_nameCounts (servers : List ResolvedServer) (n : String) :
    countOf (nameCounts servers) n
      = (flatTools servers).countP (fun p => p.1.name = n) := by
  unfold nameCounts
  rw [countOf_foldl_bump (flatTools servers) (fun p => p.1.name)]
  simp [countOf_nil]

theorem two_le_countP (l : List β) (p : β → Bool) (a b : β) (hab : a ≠ b)
    (ha : a ∈ l) (hb : b ∈ l) (hpa : p a = true) (hpb : p b = true) :
    2 ≤ l.countP p := by
  induction l with
  | nil => simp at ha
  | cons x t ih =>
    rw [List.countP_cons]
    by_cases hx : p x = true
    · rcases List.mem_cons.mp ha with hax | hat
      · rcases List.mem_cons.mp hb with hbx | hbt
        · exact absurd (hax.trans hbx.symm) hab
        · have h1 : 0 < t.countP p := List.countP_pos_iff.mpr ⟨b, hbt, hpb⟩
          simp only [hx, if_true]
          omega
      · rcases List.mem_cons.mp hb with hbx | hbt
        · have h1 : 0 < t.countP p := List.countP_pos_iff.mpr ⟨a, hat, hpa⟩
          simp only [hx, if_true]
          omega
        · have := ih hat hbt
          omega
    · have hat : a ∈ t := by
        rcases List.mem_cons.mp ha with hax | hat
        · exact absurd (hax ▸ hpa) hx
        · exact hat
      have hbt : b ∈ t := by
        rcases List.mem_cons.mp hb with hbx | hbt
        · exact absurd (hbx ▸ hpb) hx
        · exact hbt
      have := ih hat hbt
      simp only [hx, if_false]
      omega

/-! ## String-suffix lemmas (deduplicated names) -/

theorem string_data_inj (a b : String) (h : a.data = b.data) : a = b := by
  cases a; cases b; simp_all

theorem data_name_suffix (n s : String) :
    (n ++ "_" ++ s).data = n.data ++ '_' :: s.data := by
  have h : ("_" : String).data = ['_'] := rfl
  rw [String.data_append, String.data_append, h]
  simp

theorem underscore_mem_suffix (n s : String) : '_' ∈ (n ++ "_" ++ s).data := by
  rw [data_name_suffix]; simp

theorem append_underscore_inj (l1 : List Char) : ∀ (l2 m1 m2 : List Char),
    '_' ∉ l1 → '_' ∉ l2 → l1 ++ '_' :: m1 = l2 ++ '_' :: m2 → l1 = l2 ∧ m1 = m2 := by
  induction l1 with
  | nil =>
    intro l2 m1 m2 _ h2 he
    cases l2 with
    | nil => simpa using he
    | cons c t =>
      simp only [List.nil_append, List.cons_append, List.cons.injEq] at he
      have : '_' ∈ c :: t := by rw [he.1]; exact List.mem_cons_self c t
      exact absurd this h2
  | cons c t ih =>
    intro l2 m1 m2 h1 h2 he
    cases l2 with
    | nil =>
      simp only [List.cons_append, List.nil_append, List.cons.injEq] at he
      have : '_' ∈ c :: t := by rw [← he.1]; exact List.mem_cons_self c t
      exact absurd this h1
    | cons d u =>
      simp only [List.cons_append, List.cons.injEq] at he
      have h1' : '_' ∉ t := fun h => h1 (List.mem_cons_of_mem c h)
      have h2' : '_' ∉ u := fun h => h2 (List.mem_cons_of_mem d h)
      obtain ⟨ht, hm⟩ := ih u m1 m2 h1' h2' he.2
      exact ⟨by rw [he.1, ht], hm⟩

theorem suffix_inj (n1 s1 n2 s2 : String)
    (h1 : '_' ∉ n1.data) (h2 : '_' ∉ n2.data)
    (he : n1 ++ "_" ++ s1 = n2 ++ "_" ++ s2) : n1 = n2 ∧ s1 = s2 := by
  have hd := congrArg String.data he
  rw [data_name_suffix, data_name_suffix] at hd
  obtain ⟨ha, hb⟩ := append_underscore_inj n1.data n2.data s1.data s2.data h1 h2 hd
  exact ⟨string_data_inj _ _ ha, string_data_inj _ _ hb⟩

/-! ## Registry deduplication lemmas -/

theorem uniqueName_inj (servers : List ResolvedServer)
    (hpairs : ((flatTools servers).map (fun p => (p.1.name, p.2))).Nodup)
    (hund : ∀ p ∈ flatTools servers, '_' ∉ p.1.name.data) :
    ∀ x ∈ flatTools servers, ∀ y ∈ flatTools servers,
      uniqueNameOf (nameCounts servers) x.1 x.2
        = uniqueNameOf (nameCounts servers) y.1 y.2 → x = y := by
  intro x hx y hy he
  unfold uniqueNameOf at he
  rw [countOf_nameCounts, countOf_nameCounts] at he
  by_cases hcx : (flatTools servers).countP (fun p => p.1.name = x.1.name) > 1
  · by_cases hcy : (flatTools servers).countP (fun p => p.1.name = y.1.name) > 1
    · rw [if_pos hcx, if_pos hcy] at he
      obtain ⟨hn, hs⟩ := suffix_inj _ _ _ _ (hund x hx) (hund y hy) he
      exact List.inj_on_of_nodup_map hpairs hx hy (by rw [Prod.ext_iff]; exact ⟨hn, hs⟩)
    · rw [if_pos hcx, if_neg hcy] at he
      have : '_' ∈ y.1.name.data := by rw [← he]; exact underscore_mem_suffix _ _
      exact absurd this (hund y hy)
  · by_cases hcy : (flatTools servers).countP (fun p => p.1.name = y.1.name) > 1
    · rw [if_neg hcx, if_pos hcy] at he
      have : '_' ∈ x.1.name.data := by rw [he]; exact underscore_mem_suffix _ _
      exact absurd this (hund x hx)
    · rw [if_neg hcx, if_neg hcy] at he
      by_contra hne
      have h2 : 2 ≤ (flatTools servers).countP (fun p => p.1.name = x.1.name) :=
        two_le_countP _ _ x y hne hx hy (by simp) (by simp [he])
      omega

theorem assignedNames_nodup (servers : List ResolvedServer)
    (hpairs : ((flatTools servers).map (fun p => (p.1.name, p.2))).Nodup)
    (hund : ∀ p ∈ flatTools servers, '_' ∉ p.1.name.data) :
    (assignedExternalNames servers).Nodup := by
  unfold assignedExternalNames
  exact (hpairs.of_map _).map_on
    (fun x hx y hy he => uniqueName_inj servers hpairs hund x hx y hy he)

theorem rebuildRegistryFromLive_eq_map (servers : List ResolvedServer)
    (hnames : (assignedExternalNames servers).Nodup) :
    rebuildRegistryFromLive servers
      = (flatTools servers).map (liveEntryPair (nameCounts servers)) := by
  show (flatTools servers).foldl
      (fun reg p => mapSet reg (liveEntryPair (nameCounts servers) p).1
        (liveEntryPair (nameCounts servers) p).2) []
    = (flatTools servers).map (liveEntryPair (nameCounts servers))
  rw [← List.foldl_map (liveEntryPair (nameCounts servers)) (fun m q => mapSet m q.1 q.2)]
  have h := foldl_mapSet_eq_append
    ((flatTools servers).map (liveEntryPair (nameCounts servers))) []
    (by rw [List.map_map]; exact hnames)
    (by intro k _ hk; simp at hk)
  simpa using h

theorem length_foldl_mapSet_pos (g : β → String × α) (l : List β) (hl : l ≠ []) :
    0 < (l.foldl (fun m x => mapSet m (g x).1 (g x).2) []).length := by
  cases l with
  | nil => exact absurd rfl hl
  | cons p rest =>
    rw [← List.foldl_map g (fun m q => mapSet m q.1 q.2)]
    simp only [List.map_cons, List.foldl_cons]
    have h1 := length_foldl_mapSet_ge (rest.map g) (mapSet [] (g p).1 (g p).2)
    have h2 : (mapSet ([] : List (String × α)) (g p).1 (g p).2).length = 1 := by
      simp [mapSet]
    omega

theorem rebuildRegistryFromLive_length_pos (servers : List ResolvedServer)
    (h : flatTools servers ≠ []) : 0 < (rebuildRegistryFromLive servers).length := by
  show 0 < ((flatTools servers).foldl
      (fun reg p => mapSet reg (liveEntryPair (nameCounts servers) p).1
        (liveEntryPair (nameCounts servers) p).2) []).length
  exact length_foldl_mapSet_pos (liveEntryPair (nameCounts servers)) (flatTools servers) h

theorem rebuildRegistryFromCache_length_pos (tools : List CachedTool)
    (h : tools ≠ []) : 0 < (rebuildRegistryFromCache tools).length := by
  show 0 < (tools.foldl
      (fun reg t => mapSet reg (cacheEntryPair (cacheNameCounts tools) t).1
        (cacheEntryPair (cacheNameCounts tools) t).2) []).length
  exact length_foldl_mapSet_pos (cacheEntryPair (cacheNameCounts tools)) tools h

/-! ## Claim C1 — registry deduplication postcondition -/

/-- C1 (amended): for every list of discovered tools whose
`(originalName, originBackend)` pairs are unique and whose original
names contain no underscore (ruling out the second-order collisions
between an already-suffixed name and another assigned name that the
source does not guard against), rebuilding the registry assigns
pairwise-distinct `externalName`s, stores exactly one entry per tool
under that name, keeps the registry keys pairwise distinct, and
assigns `externalName = originalName` to every tool whose name occurs
exactly once across backends and
`externalName = originalName ++ "_" ++ originBackend` to every tool
whose name occurs more than once — including the first colliding tool
encountered. -/
theorem C1_registry_dedup_amended (servers : List ResolvedServer)
    (hpairs : ((flatTools servers).map (fun p => (p.1.name, p.2))).Nodup)
    (hund : ∀ p ∈ flatTools servers, '_' ∉ p.1.name.data) :
    (assignedExternalNames servers).Nodup
    ∧ rebuildRegistryFromLive servers
        = (flatTools servers).map (liveEntryPair (nameCounts servers))
    ∧ ((rebuildRegistryFromLive servers).map Prod.fst).Nodup
    ∧ ∀ p ∈ flatTools servers,
        ((flatTools servers).countP (fun q => q.1.name = p.1.name) = 1 →
          uniqueNameOf (nameCounts servers) p.1 p.2 = p.1.name)
        ∧ (1 < (flatTools servers).countP (fun q => q.1.name = p.1.name) →
          uniqueNameOf (nameCounts servers) p.1 p.2 = p.1.name ++ "_" ++ p.2) := by
  have h1 := assignedNames_nodup servers hpairs hund
  have h2 := rebuildRegistryFromLive_eq_map servers h1
  refine ⟨h1, h2, ?_, ?_⟩
  · rw [h2, List.map_map]
    exact h1
  · intro p _
    constructor
    · intro hc
      unfold uniqueNameOf
      rw [countOf_nameCounts, hc]
      simp
    · intro hc
      unfold uniqueNameOf
      rw [countOf_nameCounts, if_pos hc]

/-- C1 witness: the amended theorem applied to two concrete backends
(`srvS`: `alpha`, `beta`; `srvT`: `alpha`). -/
theorem C1_registry_dedup_witness :
    (assignedExternalNames demoServers).Nodup
    ∧ rebuildRegistryFromLive demoServers
        = (flatTools demoServers).map (liveEntryPair (nameCounts demoServers)) := by
  have h := C1_registry_dedup_amended demoServers (by decide) (by decide)
  exact ⟨h.1, h.2.1⟩

/-- C1 counterexample: `clashServers` has pairwise-distinct
`(originalName, originBackend)` pairs — the only hypothesis of the claim —
yet pass 2 assigns the same external name `a_srvS` to two different
tools (the suffixed colliding `a` from `srvS` and the literal tool
`a_srvS`), so the assigned external names are not pairwise distinct
and the rebuilt registry retains only 2 entries for 3 tools. -/
theorem C1_registry_dedup_counterexample :
    ((flatTools clashServers).map (fun p => (p.1.name, p.2))).Nodup
    ∧ ¬ (assignedExternalNames clashServers).Nodup
    ∧ assignedExternalNames clashServers = ["a_srvS", "a_srvS", "a_srvT"]
    ∧ (flatTools clashServers).length = 3
    ∧ (rebuildRegistryFromLive clashServers).length = 2 :=
  ⟨by decide, by decide, by rfl, by rfl, by rfl⟩

/-! ## Claims C6 and C7 — schema sanitization -/

/-- C6: sanitizing a schema whose `allOf` lists two sub-schemas with
`properties` `a` / `b` and `required` `["a"]` / `["b"]` merges both
properties into the parent, unions the required arrays, removes the
`allOf` key, and sets `type` to `"object"`. -/
theorem C6_sanitize_allOf :
    mapGet (sanitizeSchema
      [("allOf", .arr
        [ .obj [("properties", .obj [("a", .obj [("type", .str "string")])]),
                ("required", .arr [.str "a"])]
        , .obj [("properties", .obj [("b", .obj [("type", .str "number")])]),
                ("required", .arr [.str "b"])] ])]) "properties"
      = some (.obj [("a", .obj [("type", .str "string")]),
                    ("b", .obj [("type", .str "number")])])
    ∧ mapGet (sanitizeSchema
      [("allOf", .arr
        [ .obj [("properties", .obj [("a", .obj [("type", .str "string")])]),
                ("required", .arr [.str "a"])]
        , .obj [("properties", .obj [("b", .obj [("type", .str "number")])]),
                ("required", .arr [.str "b"])] ])]) "required"
      = some (.arr [.str "a", .str "b"])
    ∧ mapGet (sanitizeSchema
      [("allOf", .arr
        [ .obj [("properties", .obj [("a", .obj [("type", .str "string")])]),
                ("required", .arr [.str "a"])]
        , .obj [("properties", .obj [("b", .obj [("type", .str "number")])]),
                ("required", .arr [.str "b"])] ])]) "allOf"
      = none
    ∧ mapGet (sanitizeSchema
      [("allOf", .arr
        [ .obj [("properties", .obj [("a", .obj [("type", .str "string")])]),
                ("required", .arr [.str "a"])]
        , .obj [("properties", .obj [("b", .obj [("type", .str "number")])]),
                ("required", .arr [.str "b"])] ])]) "type"
      = some (.str "object") :=
  ⟨rfl, rfl, rfl, rfl⟩

/-- C7: sanitizing a schema whose `oneOf` lists two variants keeps
only the first variant (its `properties` merged into the parent) and
removes the `oneOf` key; and sanitization recurses into nested
`properties` values that are themselves schema objects (here an inner
`anyOf` one level down is also flattened to its first variant). -/
theorem C7_sanitize_oneOf_first_variant :
    sanitizeSchema
      [("oneOf", .arr
        [ .obj [("properties", .obj [("a", .obj [("type", .str "string")])])]
        , .obj [("properties", .obj [("b", .obj [("type", .str "number")])])] ])]
      = [("properties", .obj [("a", .obj [("type", .str "string")])]),
         ("type", .str "object")]
    ∧ mapGet (sanitizeSchema
      [("oneOf", .arr
        [ .obj [("properties", .obj [("a", .obj [("type", .str "string")])])]
        , .obj [("properties", .obj [("b", .obj [("type", .str "number")])])] ])]) "oneOf"
      = none
    ∧ sanitizeSchema
      [("properties", .obj
        [("x", .obj [("anyOf", .arr
          [.obj [("properties", .obj [("q", .obj [("type", .str "number")])])]])])])]
      = [("properties", .obj
          [("x", .obj [("properties", .obj [("q", .obj [("type", .str "number")])]),
                       ("type", .str "object")])])] :=
  ⟨rfl, rfl, rfl⟩

/-! ## Claim C2 — list-tools is non-blocking and state-determined -/

/-- C2: the `tools/list` handler is a pure function of dispatcher
state (it never awaits discovery) and is fully determined by it: a
non-empty registry answers exactly the tool definitions of its
entries; an empty registry with a recorded discovery failure answers
exactly the single connection-failure placeholder; an empty registry
without a failure answers exactly the single sign-in placeholder.
After a successful discovery the registry is rebuilt from live tools,
so live entries replace the disk-derived ones; after construction
from a non-empty disk cache the handler answers the cache-derived
entries. -/
theorem C2_list_tools_characterization :
    (∀ st : ProxyState, st.registry ≠ [] →
      listToolsHandler st = st.registry.map (fun p => p.2.toolDef))
    ∧ (∀ (st : ProxyState) (e : String), st.registry = [] → st.discoveryError = some e →
      listToolsHandler st = [connectionStatusToolDef e])
    ∧ (∀ st : ProxyState, st.registry = [] → st.discoveryError = none →
      listToolsHandler st = [signInToolDef])
    ∧ (∀ (st : ProxyState) (servers : List ResolvedServer), flatTools servers ≠ [] →
      listToolsHandler (applyDiscovery st (.success servers))
        = (rebuildRegistryFromLive servers).map (fun p => p.2.toolDef))
    ∧ (∀ cs : List CachedTool, cs ≠ [] →
      listToolsHandler (mkProxyState false [] true (some cs))
        = (rebuildRegistryFromCache cs).map (fun p => p.2.toolDef)) := by
  refine ⟨?_, ?_, ?_, ?_, ?_⟩
  · intro st h
    unfold listToolsHandler
    rw [if_pos]
    exact List.length_pos.mpr h
  · intro st e h he
    unfold listToolsHandler
    simp [h, he]
  · intro st h he
    unfold listToolsHandler
    simp [h, he]
  · intro st servers h
    have hpos : 0 < (applyDiscovery st (.success servers)).registry.length :=
      rebuildRegistryFromLive_length_pos servers h
    unfold listToolsHandler
    rw [if_pos hpos]
    rfl
  · intro cs h
    have hlen : 0 < cs.length := List.length_pos.mpr h
    have hreg : (mkProxyState false [] true (some cs)).registry
        = rebuildRegistryFromCache cs := by
      simp [mkProxyState, hlen]
    unfold listToolsHandler
    rw [hreg, if_pos (rebuildRegistryFromCache_length_pos cs h)]

/-- C2 witness: the characterization applied to the concrete
cache-derived state `stRunning` and the empty state `stNoCache`. -/
theorem C2_list_tools_witness :
    listToolsHandler stRunning = stRunning.registry.map (fun p => p.2.toolDef)
    ∧ listToolsHandler stNoCache = [signInToolDef] := by
  constructor
  · refine C2_list_tools_characterization.1 stRunning ?_
    have h1 : stRunning.registry.length = 1 := by decide
    intro hnil
    rw [hnil] at h1
    simp at h1
  · exact C2_list_tools_characterization.2.2.1 stNoCache rfl rfl

/-! ## Claim C8 — disk cache load -/

/-- C8: `loadToolsCache` returns absent — a value, never an error —
in exactly three situations: the cache file is missing, its contents
are unparseable, or its timestamp is older than 24 hours; and a stale
cache file is observationally identical at the load interface to a
missing file. -/
theorem C8_cache_load_absent :
    (∀ now : Int, loadToolsCache .missing now = none)
    ∧ (∀ now : Int, loadToolsCache .unparseable now = none)
    ∧ (∀ (now : Int) (c : ToolsCache), now - c.timestamp > MAX_CACHE_AGE_MS →
        loadToolsCache (.parsed c) now = none)
    ∧ (∀ (now : Int) (c : ToolsCache), ¬ now - c.timestamp > MAX_CACHE_AGE_MS →
        loadToolsCache (.parsed c) now = some c.tools)
    ∧ (∀ (now : Int) (file : CacheFile),
        loadToolsCache file now = none ↔
          (file = .missing ∨ file = .unparseable ∨
            ∃ c, file = .parsed c ∧ now - c.timestamp > MAX_CACHE_AGE_MS))
    ∧ (∀ (now : Int) (c : ToolsCache), now - c.timestamp > MAX_CACHE_AGE_MS →
        loadToolsCache (.parsed c) now = loadToolsCache .missing now) := by
  refine ⟨fun _ => rfl, fun _ => rfl, ?_, ?_, ?_, ?_⟩
  · intro now c h
    simp [loadToolsCache, h]
  · intro now c h
    simp [loadToolsCache, h]
  · intro now file
    cases file with
    | missing => simp [loadToolsCache]
    | unparseable => simp [loadToolsCache]
    | parsed c =>
      unfold loadToolsCache
      by_cases h : now - c.timestamp > MAX_CACHE_AGE_MS
      · simp [h]
      · simp [h]
  · intro now c h
    simp [loadToolsCache, h]

/-- C8 witness: a cache written at epoch 0 loaded at 24 h + 1 ms is
absent, exactly like a missing file. -/
theorem C8_cache_load_witness :
    loadToolsCache (.parsed { timestamp := 0, tools := [cachedAlpha] }) 86400001
      = loadToolsCache .missing 86400001
    ∧ loadToolsCache (.parsed { timestamp := 0, tools := [cachedAlpha] }) 86400001 = none := by
  constructor
  · exact C8_cache_load_absent.2.2.2.2.2 86400001 { timestamp := 0, tools := [cachedAlpha] }
      (by norm_num [MAX_CACHE_AGE_MS])
  · exact C8_cache_load_absent.2.2.1 86400001 { timestamp := 0, tools := [cachedAlpha] }
      (by norm_num [MAX_CACHE_AGE_MS])

/-! ## Claim C9 — best-effort per-backend discovery -/

/-- C9: `discoverAll` is best-effort per backend: its result is
exactly the successful backends in order (each with its built URL and
tools), failing backends are skipped, and no error reaches the caller
(the function is total into a plain list).  On the concrete example
A(ok, 3 tools), B(fails), C(ok, 2 tools) it yields exactly the 5
tools of A and C with B absent. -/
theorem C9_discoverAll_best_effort :
    (∀ (endpoint : String) (configs : List MCPServerConfig)
       (outcomes : MCPServerConfig → Except String (List DiscoveredTool)),
      ServerDiscovery.discoverAll endpoint configs outcomes
        = configs.filterMap (fun cfg =>
            match outcomes cfg with
            | .ok tools =>
              some { config := cfg, url := buildServerUrl endpoint cfg, tools := tools }
            | .error _ => none))
    ∧ ((ServerDiscovery.discoverAll "http://e" [cfgA, cfgB, cfgC] demoOutcomes).map
        (fun s => s.config.mcpServerName)) = ["A", "C"]
    ∧ (((ServerDiscovery.discoverAll "http://e" [cfgA, cfgB, cfgC] demoOutcomes).map
        (fun s => s.tools.length)).sum) = 5 := by
  refine ⟨?_, by rfl, by rfl⟩
  intro endpoint configs outcomes
  unfold ServerDiscovery.discoverAll
  have key : ∀ (l : List MCPServerConfig) (acc : List ResolvedServer),
      l.foldl (fun resolved cfg =>
        match outcomes cfg with
        | .ok tools =>
          resolved ++ [{ config := cfg, url := buildServerUrl endpoint cfg, tools := tools }]
        | .error _ => resolved) acc
      = acc ++ l.filterMap (fun cfg =>
          match outcomes cfg with
          | .ok tools =>
            some { config := cfg, url := buildServerUrl endpoint cfg, tools := tools }
          | .error _ => none) := by
    intro l
    induction l with
    | nil => intro acc; simp
    | cons c t ih =>
      intro acc
      simp only [List.foldl_cons, List.filterMap_cons]
      cases hc : outcomes c with
      | ok tools =>
        simp only [hc]
        rw [ih]
        simp
      | error e =>
        simp only [hc]
        rw [ih]
  simpa using key configs []

/-! ## Claim C4 — calls never raise, all failures are structured -/

/-- C4: the call path never raises to the transport layer: a call for
a name absent from the registry answers a structured error content
block naming the unknown tool, and `ToolForwarder.callTool` answers a
`{content: [{type, text}]}` value in every case — unknown tool at the
forwarder, backend connection/auth failure, backend call failure, a
backend result with content, and a backend result without content
(stringified fallback).  Totality of the embedded functions into
`CallResult` reflects that every exception is caught in the source. -/
theorem C4_call_structured_errors :
    (∀ (st : ProxyState) (o : DiscoveryOutcome) (delay : Option Nat) (name : String)
       (args : Fields) (b : BackendBehavior),
      name ≠ "agent365_sign_in_status" → mapGet st.registry name = none →
      callToolHandler st o delay name args b = toolNotFoundResult name)
    ∧ (∀ (fw : ToolForwarder) (n : String) (args : Fields) (b : BackendBehavior),
      mapGet fw.toolServerMap n = none →
      ToolForwarder.callTool fw n args none b
        = { content := [{ type := "text", text := unknownToolText fw n }] })
    ∧ (∀ (fw : ToolForwarder) (n : String) (args : Fields) (s : ResolvedServer) (msg : String),
      ToolForwarder.callTool fw n args (some s) (.connectError msg)
        = { content := [⟨"text", callFailedText n s.config.mcpServerName msg⟩] })
    ∧ (∀ (fw : ToolForwarder) (n : String) (args : Fields) (s : ResolvedServer) (msg : String),
      ToolForwarder.callTool fw n args (some s) (.callError msg)
        = { content := [⟨"text", callFailedText n s.config.mcpServerName msg⟩] })
    ∧ (∀ (fw : ToolForwarder) (n : String) (args : Fields) (s : ResolvedServer) (msg : String),
      mapGet fw.toolServerMap n = some s →
      ToolForwarder.callTool fw n args none (.connectError msg)
        = { content := [⟨"text", callFailedText n s.config.mcpServerName msg⟩] })
    ∧ (∀ (fw : ToolForwarder) (n : String) (args : Fields) (s : ResolvedServer)
        (c : List ContentItem) (raw : String),
      ToolForwarder.callTool fw n args (some s) (.ok (some c) raw) = { content := c })
    ∧ (∀ (fw : ToolForwarder) (n : String) (args : Fields) (s : ResolvedServer) (raw : String),
      ToolForwarder.callTool fw n args (some s) (.ok none raw)
        = { content := [{ type := "text", text := raw }] }) := by
  refine ⟨?_, ?_, ?_, ?_, ?_, ?_, ?_⟩
  · intro st o delay name args b hname hmap
    simp [callToolHandler, hname, hmap]
  · intro fw n args b hmap
    cases b <;> simp [ToolForwarder.callTool, hmap]
  · intro fw n args s msg
    rfl
  · intro fw n args s msg
    rfl
  · intro fw n args s msg hmap
    simp [ToolForwarder.callTool, hmap]
  · intro fw n args s c raw
    rfl
  · intro fw n args s raw
    rfl

/-- C4 witness: the theorem applied at a concrete forwarder (built
from `demoServers`), a concrete dispatcher state, and a concrete
connection failure. -/
theorem C4_call_structured_errors_witness :
    ToolForwarder.callTool (mkToolForwarder demoServers) "nosuch" [] none (.ok none "raw")
      = { content := [⟨"text", unknownToolText (mkToolForwarder demoServers) "nosuch"⟩] }
    ∧ callToolHandler stRunning (.success []) none "nosuch" [] (.ok none "raw")
      = toolNotFoundResult "nosuch"
    ∧ ToolForwarder.callTool (mkToolForwarder demoServers) "alpha" []
        (some { config := cfgT, url := "http://t/", tools := [{ name := "alpha" }] })
        (.connectError "boom")
      = { content := [⟨"text", callFailedText "alpha" "srvT" "boom"⟩] } := by
  refine ⟨?_, ?_, ?_⟩
  · exact C4_call_structured_errors.2.1 (mkToolForwarder demoServers) "nosuch" []
      (.ok none "raw") (by rfl)
  · exact C4_call_structured_errors.1 stRunning (.success []) none "nosuch" []
      (.ok none "raw") (by decide) (by rfl)
  · exact C4_call_structured_errors.2.2.1 (mkToolForwarder demoServers) "alpha" []
      { config := cfgT, url := "http://t/", tools := [{ name := "alpha" }] } "boom"

/-! ## Claim C5 — placeholder interception -/

/-- C5 (amended): in the earlier (pre-registry) handler variant both
placeholder names are intercepted before any lookup and answered with
a status message that reflects the current discovery state (connected
when complete without error, the failure reason when an error is
recorded, still-connecting otherwise).  In the current registry
variant only the sign-in placeholder is intercepted, and with a fixed
setup message that does not depend on the state; the
connection-status placeholder goes through the normal registry lookup
and, when absent from the registry, is answered as an unknown tool. -/
theorem C5_placeholder_interception_amended :
    (∀ (st : ProxyState) (o : DiscoveryOutcome) (delay : Option Nat) (args : Fields)
       (b : BackendBehavior) (name : String),
      (name = "agent365_sign_in_status" ∨ name = "agent365_connection_status") →
      callToolHandlerV1 st o delay name args b = placeholderStatusResultV1 st)
    ∧ (∀ (st : ProxyState) (o : DiscoveryOutcome) (delay : Option Nat) (args : Fields)
        (b : BackendBehavior),
      callToolHandler st o delay "agent365_sign_in_status" args b = signInCallResult)
    ∧ (∀ (st : ProxyState) (o : DiscoveryOutcome) (delay : Option Nat) (args : Fields)
        (b : BackendBehavior),
      mapGet st.registry "agent365_connection_status" = none →
      callToolHandler st o delay "agent365_connection_status" args b
        = toolNotFoundResult "agent365_connection_status")
    ∧ (∀ st : ProxyState, st.discoveryComplete = true → st.discoveryError = none →
      placeholderStatusResultV1 st
        = { content := [⟨"text", "✅ Agent 365 is connected! Tools are ready to use."⟩] })
    ∧ (∀ (st : ProxyState) (e : String), st.discoveryError = some e →
      placeholderStatusResultV1 st
        = { content := [⟨"text",
            "❌ Connection failed: " ++ e ++ "\n\nRun \x27npm run login\x27 to set up."⟩] })
    ∧ (∀ st : ProxyState, st.discoveryComplete = false → st.discoveryError = none →
      placeholderStatusResultV1 st
        = { content :=
            [⟨"text", "⏳ Agent 365 is still connecting. Please wait a moment and try again."⟩] }) := by
  refine ⟨?_, ?_, ?_, ?_, ?_, ?_⟩
  · intro st o delay args b name hname
    unfold callToolHandlerV1
    rw [if_pos hname]
  · intro st o delay args b
    unfold callToolHandler
    rw [if_pos rfl]
  · intro st o delay args b hmap
    unfold callToolHandler
    rw [if_neg (by decide), hmap]
  · intro st h he
    simp [placeholderStatusResultV1, h, he]
  · intro st e he
    simp [placeholderStatusResultV1, he]
  · intro st h he
    simp [placeholderStatusResultV1, h, he]

/-- C5 counterexample: in the registry-variant handler (the one the
claim cites at lines 609–625), after a failed discovery with an empty
registry a call to `agent365_connection_status` is answered as an
unknown tool, not intercepted with a status message — and that reply
differs from the status reply the earlier variant would give. -/
theorem C5_placeholder_interception_counterexample :
    callToolHandler (applyDiscovery stNoCache (.failure "ECONNREFUSED"))
        (.success []) none "agent365_connection_status" [] (.ok none "raw")
      = toolNotFoundResult "agent365_connection_status"
    ∧ toolNotFoundResult "agent365_connection_status"
      ≠ placeholderStatusResultV1 (applyDiscovery stNoCache (.failure "ECONNREFUSED")) :=
  ⟨rfl, by decide⟩

/-- C5 witness: the amended theorem applied at the concrete state
`stRunning` (discovery running, no error). -/
theorem C5_placeholder_interception_witness :
    callToolHandlerV1 stRunning (.success []) none "agent365_connection_status" []
        (.ok none "raw")
      = placeholderStatusResultV1 stRunning
    ∧ callToolHandler stRunning (.success []) none "agent365_sign_in_status" []
        (.ok none "raw")
      = signInCallResult
    ∧ placeholderStatusResultV1 stRunning
      = { content :=
          [⟨"text", "⏳ Agent 365 is still connecting. Please wait a moment and try again."⟩] } := by
  refine ⟨?_, ?_, ?_⟩
  · exact C5_placeholder_interception_amended.1 stRunning (.success []) none []
      (.ok none "raw") "agent365_connection_status" (Or.inr rfl)
  · exact C5_placeholder_interception_amended.2.1 stRunning (.success []) none []
      (.ok none "raw")
  · exact C5_placeholder_interception_amended.2.2.2.2.2 stRunning rfl rfl

/-! ## Claim C3 — call waits for discovery with a 30 s ceiling -/

/-- C3: a call issued while discovery is still running (not complete,
task pending, no live forwarder) for a registered non-placeholder
name waits for discovery for at most 30 s: if discovery completes
successfully within the ceiling the call proceeds to forwarding the
original name to the resolved backend; if the ceiling elapses first
(or the task never settles) the call answers the structured timeout
content — a value, not an exception — after exactly 30000 ms, and the
underlying discovery attempt is unaffected and still reaches the
completed state. -/
theorem C3_call_waits_for_discovery
    (st : ProxyState) (name : String) (entry : ToolRegistryEntry)
    (h1 : st.discoveryComplete = false) (h2 : st.hasDiscoveryTask = true)
    (h3 : st.forwarder = false)
    (h4 : mapGet st.registry name = some entry)
    (h5 : name ≠ "agent365_sign_in_status") :
    (∀ (servers : List ResolvedServer) (d : Nat) (args : Fields) (b : BackendBehavior)
       (ts : ResolvedServer),
      d ≤ 30000 →
      servers.find? (fun s => s.config.mcpServerName = entry.serverName) = some ts →
      callToolHandler st (.success servers) (some d) name args b
        = ToolForwarder.callTool (mkToolForwarder servers) entry.originalName args
            (some ts) b)
    ∧ (∀ (o : DiscoveryOutcome) (d : Nat) (args : Fields) (b : BackendBehavior),
      30000 < d →
      callToolHandler st o (some d) name args b = connectionTimeoutResult
      ∧ (waitForDiscovery st o (some d) 30000).2.1 = 30000)
    ∧ (∀ (o : DiscoveryOutcome) (args : Fields) (b : BackendBehavior),
      callToolHandler st o none name args b = connectionTimeoutResult)
    ∧ (∀ o : DiscoveryOutcome, (applyDiscovery st o).discoveryComplete = true) := by
  refine ⟨?_, ?_, ?_, ?_⟩
  · intro servers d args b ts hd hfind
    simp only [callToolHandler, h5, if_neg, h4]
    simp [waitForDiscovery, h1, h2, h3, hd, applyDiscovery, hfind]
  · intro o d args b hd
    constructor
    · simp only [callToolHandler, h5, if_neg, h4]
      simp [waitForDiscovery, h1, h2, h3, Nat.not_le.mpr hd]
    · simp [waitForDiscovery, h1, h2, Nat.not_le.mpr hd]
  · intro o args b
    simp only [callToolHandler, h5, if_neg, h4]
    simp [waitForDiscovery, h1, h2, h3]
  · intro o
    cases o <;> rfl

/-- C3 witness: from the cache-derived running state, a call to
`alpha` with discovery succeeding after 5 ms forwards to `srvS`,
while with discovery still pending after 40000 ms it answers the
timeout content. -/
theorem C3_call_waits_witness :
    callToolHandler stRunning (.success demoServers) (some 5) "alpha" [] (.ok none "raw")
      = ToolForwarder.callTool (mkToolForwarder demoServers) "alpha" []
          (some { config := cfgS, url := "http://s/",
                  tools := [{ name := "alpha" }, { name := "beta" }] })
          (.ok none "raw")
    ∧ callToolHandler stRunning (.failure "slow") (some 40000) "alpha" [] (.ok none "raw")
      = connectionTimeoutResult := by
  have h := C3_call_waits_for_discovery stRunning "alpha"
    (cacheEntryPair (cacheNameCounts [cachedAlpha]) cachedAlpha).2
    rfl rfl rfl (by rfl) (by decide)
  exact ⟨h.1 demoServers 5 [] (.ok none "raw") _ (by omega) (by rfl),
         (h.2.1 (.failure "slow") 40000 [] (.ok none "raw") (by omega)).1⟩

/-! ## Claim C10 — failed discovery satisfies the wait immediately -/

/-- C10: once background discovery has failed (the catch branch of
`runDiscovery` ran: completion flag set, error recorded, forwarder
still absent), a call for a non-placeholder name present in the
cache-derived registry answers the structured timeout content
immediately: `waitForDiscovery` returns `true` after 0 ms because
completion — success or failure — satisfies the wait, and the still
absent forwarder then short-circuits to the timeout result. -/
theorem C10_failed_discovery_short_circuits
    (st : ProxyState) (name : String) (entry : ToolRegistryEntry) (msg : String)
    (h3 : st.forwarder = false)
    (h4 : mapGet st.registry name = some entry)
    (h5 : name ≠ "agent365_sign_in_status") :
    (∀ (o : DiscoveryOutcome) (delay : Option Nat) (args : Fields) (b : BackendBehavior),
      callToolHandler (applyDiscovery st (.failure msg)) o delay name args b
        = connectionTimeoutResult)
    ∧ (∀ (o : DiscoveryOutcome) (delay : Option Nat),
      waitForDiscovery (applyDiscovery st (.failure msg)) o delay 30000
        = (true, 0, applyDiscovery st (.failure msg)))
    ∧ (applyDiscovery st (.failure msg)).discoveryError = some msg
    ∧ (applyDiscovery st (.failure msg)).discoveryComplete = true := by
  refine ⟨?_, ?_, rfl, rfl⟩
  · intro o delay args b
    simp only [callToolHandler, h5, if_neg]
    have hreg : mapGet (applyDiscovery st (.failure msg)).registry name = some entry := h4
    rw [hreg]
    simp [waitForDiscovery, applyDiscovery, h3]
  · intro o delay
    simp [waitForDiscovery, applyDiscovery]

/-- C10 witness: after a failed discovery from the cache-derived
running state, a call to the cached tool `alpha` answers the timeout
content with a wait of 0 ms. -/
theorem C10_failed_discovery_witness :
    callToolHandler (applyDiscovery stRunning (.failure "auth failed"))
        (.success []) (some 99999) "alpha" [] (.ok none "raw")
      = connectionTimeoutResult
    ∧ waitForDiscovery (applyDiscovery stRunning (.failure "auth failed"))
        (.success []) (some 99999) 30000
      = (true, 0, applyDiscovery stRunning (.failure "auth failed")) := by
  have h := C10_failed_discovery_short_circuits stRunning "alpha"
    (cacheEntryPair (cacheNameCounts [cachedAlpha]) cachedAlpha).2 "auth failed"
    rfl (by rfl) (by decide)
  exact ⟨h.1 (.success []) (some 99999) [] (.ok none "raw"),
         h.2.1 (.success []) (some 99999)⟩

end Agent365
